import Mathlib

/-!
Verification of the TRPG dice engine (`src/trpg_dice/core/dice_engine.py`).

The Python module is embedded shallowly: strings become `List Char`, Python
`int` becomes `ℤ` (or `ℕ` where the source regex only produces digits),
exceptions become `Except DiceError`, and the process-global PRNG becomes an
explicit tape `tape : ℕ → ℕ` whose `i`-th entry is the face produced by the
`i`-th call to `random.randint` during one evaluation.  Everything is
executable, so concrete expressions can be evaluated with `decide` / `rfl`.
-/

/-! ### Configuration (the module-level `config = DiceConfig()` instance) -/

def MAX_DICE_COUNT : ℕ := 100

def MAX_DICE_SIDES : ℕ := 1000

def DEFAULT_DICE_TYPE : ℕ := 20

def ENABLE_CRITICAL_EFFECTS : Bool := true

/-! ### Python string primitives -/

/-- Python `str.lower()` (ASCII is all the engine ever sees). -/
def pyLower (s : List Char) : List Char := s.map Char.toLower

/-- Python `str.strip()`: drop whitespace from both ends. -/
def pyStrip (s : List Char) : List Char :=
  ((s.dropWhile Char.isWhitespace).reverse.dropWhile Char.isWhitespace).reverse

/-- Python `str.split(c)` for a single-character separator:
`"axb".split('x') == ["a","b"]`, `"".split('x') == [""]`. -/
def pySplit (c : Char) : List Char → List (List Char)
  | [] => [[]]
  | a :: rest =>
    if a = c then [] :: pySplit c rest
    else
      match pySplit c rest with
      | [] => [[a]]
      | h :: t => (a :: h) :: t

/-- Python `re.split` on the pattern of a sign character class with a capturing
group: the string is cut at every `+`/`-` and the one-character separators are
kept in the output, e.g. on `10-2d6` it yields `10`, `-`, `2d6`. -/
def reSplitSigns : List Char → List (List Char)
  | [] => [[]]
  | a :: rest =>
    if a = '+' ∨ a = '-' then [] :: [a] :: reSplitSigns rest
    else
      match reSplitSigns rest with
      | [] => [[a]]
      | h :: t => (a :: h) :: t

/-- Split a string at the first occurrence of `c`; `none` when `c` is absent. -/
def splitFirst (c : Char) : List Char → Option (List Char × List Char)
  | [] => none
  | a :: rest =>
    if a = c then some ([], rest)
    else
      match splitFirst c rest with
      | none => none
      | some (l, r) => some (a :: l, r)

/-- Split a string at the first `+` or `-`, keeping the sign character. -/
def splitFirstSign : List Char → Option (List Char × Char × List Char)
  | [] => none
  | a :: rest =>
    if a = '+' ∨ a = '-' then some ([], a, rest)
    else
      match splitFirstSign rest with
      | none => none
      | some (l, sg, r) => some (a :: l, sg, r)

def allDigits (s : List Char) : Bool := s.all Char.isDigit

/-- Numeric value of a digit string (the way `int` reads `\d+`). -/
def digitsVal (s : List Char) : ℕ :=
  s.foldl (fun acc c => 10 * acc + (c.toNat - 48)) 0

/-- The regex `[+-]?\d+` anchored at both ends, as used by `int(...)` and by
the pure-number branch of the parser. -/
def matchSignedInt : List Char → Option ℤ
  | [] => none
  | a :: rest =>
    if a = '+' then
      if rest ≠ [] ∧ allDigits rest then some (digitsVal rest) else none
    else if a = '-' then
      if rest ≠ [] ∧ allDigits rest then some (-(digitsVal rest : ℤ)) else none
    else
      if allDigits (a :: rest) then some (digitsVal (a :: rest)) else none

/-- Python `int(s)`: surrounding whitespace is tolerated, then an optional
sign followed by digits. -/
def pyInt (s : List Char) : Option ℤ := matchSignedInt (pyStrip s)

/-- The paren stripping of the multiplier branch: `startswith('(') and
endswith(')')` followed by the slice `[1:-1]`. -/
def parenStrip (s : List Char) : List Char :=
  if s.head? = some '(' ∧ s.getLast? = some ')' then (s.drop 1).dropLast else s

/-! ### Errors (`ValueError`s raised by the engine, by kind) -/

/-- The failure kinds the Python module can raise.  The first five are the
error kinds named by the specification; `intConversion` is an uncaught
`ValueError` escaping `int(...)`, and `emptyRandRange` is the `ValueError`
raised by `random.randint(1, sides)` when `sides < 1`. -/
inductive DiceError where
  | emptyExpression
  | unparseable
  | invalidKeepCount
  | diceCountExceeded
  | diceSidesExceeded
  | intConversion
  | emptyRandRange
  deriving DecidableEq, Repr

/-- Whether an error kind is one of the five kinds named in the
specification's error-handling design. -/
def isSpecifiedErrorKind : DiceError → Bool
  | DiceError.emptyExpression => true
  | DiceError.unparseable => true
  | DiceError.invalidKeepCount => true
  | DiceError.diceCountExceeded => true
  | DiceError.diceSidesExceeded => true
  | DiceError.intConversion => false
  | DiceError.emptyRandRange => false

/-- The 5-tuple returned by `DiceParser.parse_expression`:
`(dice_count, dice_sides, modifier, multiplier, keep_count)`. -/
abbrev Parse5 := ℕ × ℕ × ℤ × ℤ × ℤ

/-! ### `DiceParser.parse_expression` -/

/-- The anchored regex of the basic dice form, digits-`d`-digits with an
optional signed modifier; returns `(count, sides, modifier)` with the
source's "empty count group means 1" default (lines 100-106 / 114-121). -/
def matchBasicDice (s : List Char) : Option (ℕ × ℕ × ℤ) :=
  match splitFirst 'd' s with
  | none => none
  | some (pre, post) =>
    if allDigits pre then
      match splitFirstSign post with
      | none =>
        if post ≠ [] ∧ allDigits post then
          some (if pre = [] then 1 else digitsVal pre, digitsVal post, 0)
        else none
      | some (mid, sg, tl) =>
        if mid ≠ [] ∧ allDigits mid ∧ tl ≠ [] ∧ allDigits tl then
          some (if pre = [] then 1 else digitsVal pre, digitsVal mid,
                if sg = '-' then -(digitsVal tl : ℤ) else (digitsVal tl : ℤ))
        else none
    else none

/-- Lines 113-133 of the source: the basic dice regex, then the pure signed
number regex, then the (dead, see `c1` below) bare-number-as-die branch,
then the unparseable failure. -/
def parseTail (e : List Char) : Except DiceError Parse5 :=
  match matchBasicDice e with
  | some (c, sd, m) => Except.ok (c, sd, m, 1, 0)
  | none =>
    match matchSignedInt e with
    | some v => Except.ok (0, 0, v, 1, 0)
    | none =>
      if e ≠ [] ∧ allDigits e then
        if digitsVal e ≤ MAX_DICE_SIDES then Except.ok (1, digitsVal e, 0, 1, 0)
        else Except.error DiceError.unparseable
      else Except.error DiceError.unparseable

/-- Lines 92-111 of the source: the keep-highest branch (entered whenever the
token contains `k`), falling through to `parseTail` when the split does not
give exactly two pieces or the dice regex does not match. -/
def parseCore (e : List Char) : Except DiceError Parse5 :=
  if 'k' ∈ e then
    match pySplit 'k' e with
    | [p0, p1] =>
      match pyInt p1 with
      | none => Except.error DiceError.intConversion
      | some keep =>
        match matchBasicDice (pyStrip p0) with
        | some (c, sd, m) =>
          if keep > (c : ℤ) then Except.error DiceError.invalidKeepCount
          else Except.ok (c, sd, m, 1, keep)
        | none => parseTail e
    | _ => parseTail e
  else parseTail e

/-- `DiceParser.parse_expression`, with a fuel argument to make the multiplier
branch's self-call (line 89) structurally recursive.  The recursive call is on
a strict substring, so `length + 1` fuel (see `parse_expression`) can never
run out; the fuel-exhausted value is arbitrary. -/
def parseExprFuel : ℕ → List Char → Except DiceError Parse5
  | 0, _ => Except.error DiceError.unparseable
  | fuel + 1, s =>
    let e := pyStrip (pyLower s)
    if ('x' ∈ e) ∧ ¬ ('k' ∈ e) then
      match pySplit 'x' e with
      | [p0, p1] =>
        match pyInt p1 with
        | none => Except.error DiceError.intConversion
        | some mult =>
          match parseExprFuel fuel (parenStrip (pyStrip p0)) with
          | Except.ok (c, sd, m, _, keep) => Except.ok (c, sd, m, mult, keep)
          | Except.error err => Except.error err
      | _ => parseCore e
    else parseCore e

/-- `DiceParser.parse_expression` (lines 72-133). -/
def parse_expression (s : List Char) : Except DiceError Parse5 :=
  parseExprFuel (s.length + 1) s

/-! ### `DiceParser.parse_multiple_dice` -/

/-- The sign application of lines 156-163: a negative sign negates the
modifier, and a negative dice group is collapsed into the flat modifier
`-count * ((sides + 1) // 2)` with `count` and `keep` reset to `0`. -/
def apply_sign (sign : ℤ) (t : Parse5) : Parse5 :=
  if sign = -1 then
    let m := -t.2.2.1
    if 0 < t.1 then
      (0, t.2.1, m - (t.1 : ℤ) * (((t.2.1 + 1) / 2 : ℕ) : ℤ), t.2.2.2.1, 0)
    else (t.1, t.2.1, m, t.2.2.2.1, t.2.2.2.2)
  else t

/-- The token loop of lines 145-165: sign tokens flip `current_sign`, blank
pieces are skipped, and every other piece is parsed and sign-adjusted. -/
def parseParts : List (List Char) → ℤ → Except DiceError (List Parse5)
  | [], _ => Except.ok []
  | p :: rest, sign =>
    if p = ['+'] then parseParts rest 1
    else if p = ['-'] then parseParts rest (-1)
    else if pyStrip p ≠ [] then
      match parse_expression p with
      | Except.error err => Except.error err
      | Except.ok t =>
        match parseParts rest sign with
        | Except.error err => Except.error err
        | Except.ok ts => Except.ok (apply_sign sign t :: ts)
    else parseParts rest sign

/-- `DiceParser.parse_multiple_dice` (lines 135-167).  The emptiness check of
lines 142-143 is kept verbatim; `reSplitSigns` (like Python's `re.split`)
never returns an empty list, so the branch is dead (see `c3` below). -/
def parse_multiple_dice (s : List Char) : Except DiceError (List Parse5) :=
  let e := pyLower (s.filter (fun c => c ≠ ' '))
  let parts := reSplitSigns e
  if parts = [] then Except.error DiceError.emptyExpression
  else parseParts parts 1

/-! ### `DiceRoller.roll_dice` and `DiceRoller.roll_expression`

Randomness is an explicit tape: `tape i` is the face returned by the `i`-th
`random.randint` call of the evaluation, and `pos` is how many draws have
already been consumed. -/

/-- The faces produced by `n` successive `randint` calls starting at tape
position `pos`. -/
def draws (tape : ℕ → ℕ) (pos n : ℕ) : List ℕ :=
  (List.range n).map (fun i => tape (pos + i))

/-- Python's `list.sort(reverse=True)` on a list of integers (descending). -/
def sortDesc (l : List ℕ) : List ℕ :=
  l.insertionSort (fun a b => b ≤ a)

/-- `DiceRoller.roll_dice` (lines 173-192).  The guards are in source order:
`count <= 0` returns no rolls, then the two configured maxima are enforced,
and then the draws happen — `random.randint(1, sides)` raises when
`sides < 1`, which the source never guards against. -/
def roll_dice (tape : ℕ → ℕ) (pos : ℕ) (dice_count dice_sides : ℕ)
    (keep_count : ℤ) : Except DiceError (List ℕ) :=
  if dice_count = 0 then Except.ok []
  else if MAX_DICE_COUNT < dice_count then Except.error DiceError.diceCountExceeded
  else if MAX_DICE_SIDES < dice_sides then Except.error DiceError.diceSidesExceeded
  else if dice_sides < 1 then Except.error DiceError.emptyRandRange
  else
    let rolls := draws tape pos dice_count
    if 0 < keep_count ∧ keep_count < (dice_count : ℤ) then
      Except.ok ((sortDesc rolls).take keep_count.toNat)
    else Except.ok rolls

/-- The term loop of `DiceRoller.roll_expression` (lines 207-220), carried out
with explicit state: tape position, accumulated rolls (already multiplier
scaled), accumulated modifier, and the main-dice pair that records the first
term that actually produced dice.  Returns
`(all_rolls, total_modifier, main_dice_count, main_dice_sides)`. -/
def rollTerms (tape : ℕ → ℕ) : List Parse5 → ℕ → List ℤ → ℤ → ℕ → ℕ →
    Except DiceError (List ℤ × ℤ × ℕ × ℕ)
  | [], _, accRolls, accMod, mc, ms => Except.ok (accRolls, accMod, mc, ms)
  | (c, sd, m, mult, keep) :: rest, pos, accRolls, accMod, mc, ms =>
    if 0 < c then
      match roll_dice tape pos c sd keep with
      | Except.error err => Except.error err
      | Except.ok rolls =>
        let scaled : List ℤ :=
          if mult ≠ 1 then rolls.map (fun r => (r : ℤ) * mult)
          else rolls.map (fun r => (r : ℤ))
        let mc2 := if mc = 0 then c else mc
        let ms2 := if mc = 0 then sd else ms
        rollTerms tape rest (pos + c) (accRolls ++ scaled) (accMod + m * mult) mc2 ms2
    else rollTerms tape rest pos accRolls (accMod + m * mult) mc ms

/-- The `DiceResult` object (lines 27-38); `total` is `sum(rolls) + modifier`
and the object is immutable, so it is exposed as a function.  The
`timestamp` field is informational only and not modelled. -/
structure DiceResult where
  expression : List Char
  rolls : List ℤ
  modifier : ℤ
  dice_count : ℕ
  dice_sides : ℕ
  deriving DecidableEq, Repr

def DiceResult.total (r : DiceResult) : ℤ := r.rolls.sum + r.modifier

/-- `DiceResult.is_critical_success` (lines 56-60): gated by the config flag,
true when any recorded roll equals the primary die's side count. -/
def is_critical_success (r : DiceResult) : Bool :=
  ENABLE_CRITICAL_EFFECTS && r.rolls.any (fun roll => roll = (r.dice_sides : ℤ))

/-- `DiceResult.is_critical_failure` (lines 62-66). -/
def is_critical_failure (r : DiceResult) : Bool :=
  ENABLE_CRITICAL_EFFECTS && r.rolls.any (fun roll => roll = 1)

/-- `DiceRoller.roll_expression` (lines 194-234).  A parse failure is re-raised
with a wrapped message (same kind); when no term produced any dice the rolls
list is replaced by the display placeholder `[0]` and the main-dice data is
zeroed. -/
def roll_expression (tape : ℕ → ℕ) (s : List Char) : Except DiceError DiceResult :=
  match parse_multiple_dice s with
  | Except.error err => Except.error err
  | Except.ok terms =>
    match rollTerms tape terms 0 [] 0 0 DEFAULT_DICE_TYPE with
    | Except.error err => Except.error err
    | Except.ok (allRolls, totalModifier, mc, ms) =>
      if allRolls = [] then
        Except.ok ⟨s, [0], totalModifier, 0, 0⟩
      else
        Except.ok ⟨s, allRolls, totalModifier, mc, ms⟩

/-! ### `DiceRoller.roll_coc_check` (lines 258-284)

The drawn `d100` is the explicit `roll` argument (the source draws it with
`random.randint(1, 100)`). -/

/-- The success levels; the Python strings are 极难成功 (extreme), 困难成功
(hard), 成功 (regular), 失败 (failure), 大成功 (critical success) and 大失败
(critical failure). -/
inductive CoCLevel where
  | criticalSuccess
  | extremeSuccess
  | hardSuccess
  | regularSuccess
  | failure
  | criticalFailure
  deriving DecidableEq, Repr

/-- Lines 263-277: the graded ladder is computed first (Python `//` is floor
division, `Int.fdiv`), then the critical override replaces it. -/
def coc_level (skill_value roll : ℤ) : CoCLevel :=
  let level :=
    if roll ≤ skill_value.fdiv 5 then CoCLevel.extremeSuccess
    else if roll ≤ skill_value.fdiv 2 then CoCLevel.hardSuccess
    else if roll ≤ skill_value then CoCLevel.regularSuccess
    else CoCLevel.failure
  if roll = 1 then CoCLevel.criticalSuccess
  else if roll = 100 ∨ (96 ≤ roll ∧ skill_value < 50) then CoCLevel.criticalFailure
  else level

/-- The dict returned by `roll_coc_check`. -/
structure CoCCheck where
  roll : ℤ
  skill_value : ℤ
  level : CoCLevel
  success : Bool
  deriving DecidableEq, Repr

/-- `DiceRoller.roll_coc_check`: `success` is the Python
`level not in ["失败", "大失败"]`. -/
def roll_coc_check (skill_value roll : ℤ) : CoCCheck :=
  { roll := roll
    skill_value := skill_value
    level := coc_level skill_value roll
    success := decide (¬ (coc_level skill_value roll = CoCLevel.failure ∨
                          coc_level skill_value roll = CoCLevel.criticalFailure)) }

/-- The classifier exactly as the claim words it: one priority ladder with the
critical cases first.  (Second definition, following the specification's
words, for comparison with `coc_level`.) -/
def coc_spec_level (skill roll : ℤ) : CoCLevel :=
  if roll = 1 then CoCLevel.criticalSuccess
  else if roll = 100 ∨ (96 ≤ roll ∧ skill < 50) then CoCLevel.criticalFailure
  else if roll ≤ skill.fdiv 5 then CoCLevel.extremeSuccess
  else if roll ≤ skill.fdiv 2 then CoCLevel.hardSuccess
  else if roll ≤ skill then CoCLevel.regularSuccess
  else CoCLevel.failure

/-! ### `DiceRoller.roll_wod_pool` (lines 286-314) -/

/-- The values stored in the returned dict. -/
inductive WodVal where
  | n (v : ℕ)
  | i (v : ℤ)
  | b (v : Bool)
  | l (v : List ℕ)
  deriving DecidableEq, Repr

/-- One iteration of the counting loop (lines 296-303), acting on the
`(successes, ones)` accumulator: a die at or above the difficulty is a
success (two with specialization on a 10); otherwise — and only otherwise,
because of the `elif` — a 1 bumps the ones counter. -/
def wodStep (difficulty : ℤ) (specialization : Bool) (acc : ℕ × ℕ) (roll : ℕ) :
    ℕ × ℕ :=
  if difficulty ≤ (roll : ℤ) then
    let s := acc.1 + 1
    let s := if specialization ∧ roll = 10 then s + 1 else s
    (s, acc.2)
  else if roll = 1 then (acc.1, acc.2 + 1)
  else acc

/-- `DiceRoller.roll_wod_pool`, returned as the association list of the Python
dict literal — the `pool_size <= 0` early return (lines 289-290) carries only
three keys, the normal return (lines 308-314) five. -/
def roll_wod_pool (tape : ℕ → ℕ) (pool_size difficulty : ℤ)
    (specialization : Bool) : List (String × WodVal) :=
  if pool_size ≤ 0 then
    [("successes", WodVal.n 0), ("rolls", WodVal.l []), ("botch", WodVal.b true)]
  else
    let rolls := draws tape 0 pool_size.toNat
    let t := rolls.foldl (wodStep difficulty specialization) (0, 0)
    let botch := decide (t.1 = 0 ∧ 0 < t.2)
    [("successes", WodVal.n t.1), ("rolls", WodVal.l rolls),
     ("botch", WodVal.b botch), ("difficulty", WodVal.i difficulty),
     ("pool_size", WodVal.i pool_size)]

/-- Successes as the claim words them: every die at or above the difficulty
adds one success, plus one more when specialization holds and the die shows
10.  (Definition following the claim's words, for comparison.) -/
def wod_spec_successes (difficulty : ℤ) (specialization : Bool) : List ℕ → ℕ
  | [] => 0
  | r :: rest =>
    (if difficulty ≤ (r : ℤ) then (if specialization ∧ r = 10 then 2 else 1) else 0)
      + wod_spec_successes difficulty specialization rest

/-- The ones counter exactly as the source computes it: a 1 below the
difficulty (the `elif` branch). -/
def wod_code_ones (difficulty : ℤ) : List ℕ → ℕ
  | [] => 0
  | r :: rest =>
    (if ¬ difficulty ≤ (r : ℤ) ∧ r = 1 then 1 else 0) + wod_code_ones difficulty rest

/-! ### Helper lemmas -/

theorem rollTerms_all_zero (tape : ℕ → ℕ) :
    ∀ (ts : List Parse5) (pos : ℕ) (accRolls : List ℤ) (accMod : ℤ) (mc ms : ℕ),
    (∀ t ∈ ts, t.1 = 0) →
    ∃ m : ℤ, rollTerms tape ts pos accRolls accMod mc ms =
      Except.ok (accRolls, m, mc, ms)
  | [], _, accRolls, accMod, mc, ms, _ => ⟨accMod, rfl⟩
  | (c, sd, m0, mult, keep) :: rest, pos, accRolls, accMod, mc, ms, h => by
    have hc : c = 0 := h (c, sd, m0, mult, keep) (List.mem_cons_self _ _)
    subst hc
    have hrest : ∀ t ∈ rest, t.1 = 0 := fun t ht => h t (List.mem_cons_of_mem _ ht)
    obtain ⟨m, hm⟩ := rollTerms_all_zero tape rest pos accRolls (accMod + m0 * mult) mc ms hrest
    exact ⟨m, by simpa [rollTerms] using hm⟩

/-! ### Claim theorems -/

/-- Claim C1 (code bug, evaluation at the failing input): the bare integer
token `20` is captured by the pure-signed-number regex `[+-]?\d+` — whose
sign is optional — before the bare-number-as-die branch can run, so the
parser returns the flat modifier `(0, 0, 20, 1, 0)` instead of one d20
`(1, 20, 0, 1, 0)`, and rolling `20` deterministically yields the placeholder
rolls `[0]` and total `20` instead of a uniform draw in `[1, 20]`. -/
theorem c1_bare_integer_is_flat_modifier :
    parse_expression ['2', '0'] = Except.ok (0, 0, 20, 1, 0) ∧
    ∀ tape : ℕ → ℕ, roll_expression tape ['2', '0'] =
      Except.ok { expression := ['2', '0'], rolls := [0], modifier := 20,
                  dice_count := 0, dice_sides := 0 } :=
  ⟨rfl, fun _ => rfl⟩

/-- Claim C3 (code bug, evaluation at the failing input): parsing the empty
expression does not fail with the empty-expression error; `re.split` always
returns at least one piece, so the guard of lines 142-143 is dead, the loop
body skips the lone blank piece, and `roll_expression` returns a zero-total
outcome with display rolls `[0]` for every random tape. -/
theorem c3_empty_expression_returns_zero_outcome :
    parse_multiple_dice [] = Except.ok [] ∧
    ∀ tape : ℕ → ℕ, roll_expression tape [] =
      Except.ok { expression := [], rolls := [0], modifier := 0,
                  dice_count := 0, dice_sides := 0 } :=
  ⟨rfl, fun _ => rfl⟩

/-- Claim C10: the token `1d0` passes the parser (its regex only requires
digits after `d`, and the roller checks `count <= 0` and the two upper
limits but never `sides >= 1`), after which drawing from `randint(1, 0)`
fails with the empty-range error — an error that is none of the five
specified kinds. -/
theorem c10_one_d_zero_unguarded_failure :
    parse_multiple_dice ['1', 'd', '0'] = Except.ok [(1, 0, 0, 1, 0)] ∧
    (∀ tape : ℕ → ℕ, roll_expression tape ['1', 'd', '0'] =
      Except.error DiceError.emptyRandRange) ∧
    isSpecifiedErrorKind DiceError.emptyRandRange = false :=
  ⟨rfl, fun _ => rfl, rfl⟩

/-- Claim C2, counterexample: rolling `10-2d6` yields total `4` on a concrete
tape, not the total `3` the claim states. -/
theorem c2_ten_minus_2d6_total_is_not_three :
    (roll_expression (fun _ => 1) ['1', '0', '-', '2', 'd', '6']).map DiceResult.total =
      Except.ok 4 ∧
    (roll_expression (fun _ => 1) ['1', '0', '-', '2', 'd', '6']).map DiceResult.total ≠
      Except.ok 3 :=
  ⟨rfl, fun h => by
    rw [(rfl : (roll_expression (fun _ => 1) ['1', '0', '-', '2', 'd', '6']).map
      DiceResult.total = Except.ok 4)] at h
    injection h with h
    exact absurd h (by decide)⟩

/-- Claim C2 (amended): a dice group parsed under a negative sign is never
rolled — the token loop collapses it to the flat modifier
`-count * ((sides + 1) // 2)` with `count` and `keep` reset to `0` — and
consequently `roll("10-2d6")` deterministically returns total
`4 = 10 - 2 * ((6 + 1) // 2)` for every random tape (not `3`: the `10`
token itself parses as a flat modifier, and the per-die expectation used is
`(6 + 1) // 2 = 3`, not `3.5`). -/
theorem c2_negative_dice_group_collapses_to_expectation
    (p : List Char) (c sd : ℕ) (m mult keep : ℤ)
    (hp : parse_expression p = Except.ok (c, sd, m, mult, keep)) (hc : 0 < c)
    (hstrip : pyStrip p ≠ []) :
    parseParts [p] (-1) =
      Except.ok [(0, sd, -m - (c : ℤ) * (((sd + 1) / 2 : ℕ) : ℤ), mult, 0)] ∧
    ∀ tape : ℕ → ℕ,
      (roll_expression tape ['1', '0', '-', '2', 'd', '6']).map DiceResult.total =
        Except.ok 4 := by
  constructor
  · have hplus : p ≠ ['+'] := by
      intro he
      rw [he, (rfl : parse_expression ['+'] = Except.error DiceError.unparseable)] at hp
      exact Except.noConfusion hp
    have hminus : p ≠ ['-'] := by
      intro he
      rw [he, (rfl : parse_expression ['-'] = Except.error DiceError.unparseable)] at hp
      exact Except.noConfusion hp
    simp only [parseParts, if_neg hplus, if_neg hminus, if_pos hstrip, hp]
    simp [apply_sign, hc]
  · exact fun _ => rfl

/-- Claim C9: when every parsed term of an expression has `count = 0` (a pure
modifier expression), the outcome's rolls are the display placeholder `[0]`
and its primary die sides are `0`, so with critical effects enabled (the
default configuration) `is_critical_success` is true — a recorded roll equals
the sides value — while `is_critical_failure` stays false. -/
theorem c9_pure_modifier_expression_is_critical_success
    (tape : ℕ → ℕ) (s : List Char) (ts : List Parse5)
    (hp : parse_multiple_dice s = Except.ok ts) (hz : ∀ t ∈ ts, t.1 = 0) :
    ∃ r : DiceResult, roll_expression tape s = Except.ok r ∧
      r.rolls = [0] ∧ r.dice_sides = 0 ∧
      is_critical_success r = true ∧ is_critical_failure r = false := by
  obtain ⟨m, hm⟩ := rollTerms_all_zero tape ts 0 [] 0 0 DEFAULT_DICE_TYPE hz
  refine ⟨⟨s, [0], m, 0, 0⟩, ?_, rfl, rfl, ?_, ?_⟩
  · simp only [roll_expression, hp, hm, if_true]
  · simp [is_critical_success, ENABLE_CRITICAL_EFFECTS]
  · simp [is_critical_failure, ENABLE_CRITICAL_EFFECTS]

/-- Witness for C2: the hypotheses hold at the concrete token `2d6`, and the
collapsed term and the deterministic total follow. -/
theorem c2_negative_dice_group_collapses_to_expectation_witness :
    parseParts [['2', 'd', '6']] (-1) = Except.ok [(0, 6, -6, 1, 0)] ∧
    (roll_expression (fun _ => 2) ['1', '0', '-', '2', 'd', '6']).map DiceResult.total =
      Except.ok 4 := by
  have h := c2_negative_dice_group_collapses_to_expectation ['2', 'd', '6'] 2 6 0 1 0
    rfl (by decide) (by decide)
  refine ⟨h.1.trans ?_, h.2 (fun _ => 2)⟩
  norm_num

/-- Witness for C9: the pure modifier expression `5` parses to a single
count-0 term and its outcome triggers the critical-success predicate. -/
theorem c9_pure_modifier_expression_is_critical_success_witness :
    ∃ r : DiceResult, roll_expression (fun _ => 1) ['5'] = Except.ok r ∧
      r.rolls = [0] ∧ r.dice_sides = 0 ∧
      is_critical_success r = true ∧ is_critical_failure r = false :=
  c9_pure_modifier_expression_is_critical_success (fun _ => 1) ['5']
    [(0, 0, 5, 1, 0)] rfl (by decide)

/-- Claim C4: for every skill value and every d100 roll in `[1, 100]`, the
code's classifier (graded ladder computed first, then the critical override)
agrees with the claim's priority order — roll 1 first, then the critical
failure disjunction, then the extreme / hard / regular thresholds with
Python floor division — and the success flag holds exactly when the level is
neither failure nor critical failure. -/
theorem c4_coc_classifier_matches_priority_order
    (skill roll : ℤ) (_h1 : 1 ≤ roll) (_h100 : roll ≤ 100) :
    (roll_coc_check skill roll).level = coc_spec_level skill roll ∧
    ((roll_coc_check skill roll).success = true ↔
      ¬ ((roll_coc_check skill roll).level = CoCLevel.failure ∨
         (roll_coc_check skill roll).level = CoCLevel.criticalFailure)) := by
  constructor
  · rfl
  · simp [roll_coc_check]

/-- Witness for C4 at skill 50, roll 25 (a hard success). -/
theorem c4_coc_classifier_matches_priority_order_witness :
    (roll_coc_check 50 25).level = coc_spec_level 50 25 ∧
    ((roll_coc_check 50 25).success = true ↔
      ¬ ((roll_coc_check 50 25).level = CoCLevel.failure ∨
         (roll_coc_check 50 25).level = CoCLevel.criticalFailure)) :=
  c4_coc_classifier_matches_priority_order 50 25 (by decide) (by decide)

/-- Claim C5: `4d6k3` parses with `keep = 3`, and for every term with
`0 < keep < count` (within the configured limits, so the draw succeeds) the
roller returns exactly `keep` values — the first `keep` of the
descending-sorted draw — each of which is at least every discarded value of
the same draw. -/
theorem c5_keep_highest_returns_keep_values
    (tape : ℕ → ℕ) (c sd keep : ℕ)
    (hk0 : 0 < keep) (hkc : keep < c) (hc : c ≤ MAX_DICE_COUNT)
    (hsd1 : 1 ≤ sd) (hsd : sd ≤ MAX_DICE_SIDES) :
    parse_expression ['4', 'd', '6', 'k', '3'] = Except.ok (4, 6, 0, 1, 3) ∧
    ∃ kept : List ℕ, roll_dice tape 0 c sd (keep : ℤ) = Except.ok kept ∧
      kept.length = keep ∧
      ∀ v ∈ kept, ∀ w ∈ (sortDesc (draws tape 0 c)).drop keep, w ≤ v := by
  refine ⟨rfl, ?_⟩
  have hc0 : c ≠ 0 := by omega
  have hkeep : 0 < (keep : ℤ) ∧ (keep : ℤ) < (c : ℤ) := by
    constructor <;> [exact_mod_cast hk0; exact_mod_cast hkc]
  refine ⟨(sortDesc (draws tape 0 c)).take keep, ?_, ?_, ?_⟩
  · unfold roll_dice
    rw [if_neg hc0, if_neg (by simp [MAX_DICE_COUNT] at hc ⊢; omega),
        if_neg (by simp [MAX_DICE_SIDES] at hsd ⊢; omega),
        if_neg (by omega), if_pos hkeep]
    simp
  · have hlen : (sortDesc (draws tape 0 c)).length = c := by
      simp [sortDesc, List.length_insertionSort, draws]
    rw [List.length_take, hlen]
    omega
  · intro v hv w hw
    have hsorted : List.Sorted (fun a b => b ≤ a) (sortDesc (draws tape 0 c)) :=
      List.sorted_insertionSort _ _
    have key := List.Pairwise.rel_of_mem_take_of_mem_drop hsorted hv hw
    exact key

/-- Witness for C5 at the claim's own example `4d6k3` (count 4, sides 6,
keep 3) on a concrete tape. -/
theorem c5_keep_highest_returns_keep_values_witness :
    parse_expression ['4', 'd', '6', 'k', '3'] = Except.ok (4, 6, 0, 1, 3) ∧
    ∃ kept : List ℕ,
      roll_dice (fun i => [3, 5, 2, 6].getD i 1) 0 4 6 ((3 : ℕ) : ℤ) =
        Except.ok kept ∧
      kept.length = 3 ∧
      ∀ v ∈ kept,
        ∀ w ∈ (sortDesc (draws (fun i => [3, 5, 2, 6].getD i 1) 0 4)).drop 3, w ≤ v :=
  c5_keep_highest_returns_keep_values (fun i => [3, 5, 2, 6].getD i 1) 4 6 3
    (by decide) (by decide) (by decide) (by decide) (by decide)

/-- Claim C6: for a term in multiplier form every recorded roll is the raw
drawn (and possibly keep-filtered) face times the multiplier, and the term's
modifier enters the assembly scaled by the same multiplier; in particular
`3d6x5` (no modifier) totals `5` times the sum of the three raw d6 draws of
the same tape. -/
theorem c6_multiplier_scales_each_die_and_modifier
    (tape : ℕ → ℕ) (c sd : ℕ) (mo mult keep : ℤ)
    (hc : 0 < c) (hcmax : c ≤ MAX_DICE_COUNT) (hsd1 : 1 ≤ sd)
    (hsd : sd ≤ MAX_DICE_SIDES) :
    (∃ faces : List ℕ, roll_dice tape 0 c sd keep = Except.ok faces ∧
      rollTerms tape [(c, sd, mo, mult, keep)] 0 [] 0 0 DEFAULT_DICE_TYPE =
        Except.ok (faces.map (fun f => (f : ℤ) * mult), mo * mult, c, sd)) ∧
    ((∀ i, i < 3 → 1 ≤ tape i ∧ tape i ≤ 6) →
      ∃ r : DiceResult, roll_expression tape ['3', 'd', '6', 'x', '5'] = Except.ok r ∧
        r.total = 5 * ((tape 0 : ℤ) + tape 1 + tape 2)) := by
  constructor
  · have hc0 : c ≠ 0 := by omega
    have hguards : ∃ faces : List ℕ, roll_dice tape 0 c sd keep = Except.ok faces := by
      unfold roll_dice
      rw [if_neg hc0, if_neg (by simp [MAX_DICE_COUNT] at hcmax ⊢; omega),
          if_neg (by simp [MAX_DICE_SIDES] at hsd ⊢; omega), if_neg (by omega)]
      by_cases hkp : 0 < keep ∧ keep < (c : ℤ)
      · exact ⟨_, by rw [if_pos hkp]⟩
      · exact ⟨_, by rw [if_neg hkp]⟩
    obtain ⟨faces, hfaces⟩ := hguards
    refine ⟨faces, hfaces, ?_⟩
    show (if 0 < c then _ else _) = _
    rw [if_pos hc, hfaces]
    by_cases hm1 : mult = 1
    · subst hm1
      simp [rollTerms, mul_one]
    · simp [rollTerms, hm1]
  · intro _h
    have hroll : roll_expression tape ['3', 'd', '6', 'x', '5'] =
        Except.ok ⟨['3', 'd', '6', 'x', '5'],
          [(tape 0 : ℤ) * 5, (tape 1 : ℤ) * 5, (tape 2 : ℤ) * 5], 0, 3, 6⟩ := rfl
    refine ⟨_, hroll, ?_⟩
    simp [DiceResult.total]
    ring

/-- Witness for C6 at `3d6x5` (count 3, sides 6, multiplier 5) on the tape
drawing 3, 5, 2. -/
theorem c6_multiplier_scales_each_die_and_modifier_witness :
    (∃ faces : List ℕ,
      roll_dice (fun i => [3, 5, 2].getD i 1) 0 3 6 0 = Except.ok faces ∧
      rollTerms (fun i => [3, 5, 2].getD i 1) [(3, 6, 0, 5, 0)] 0 [] 0 0
          DEFAULT_DICE_TYPE =
        Except.ok (faces.map (fun f => (f : ℤ) * 5), 0 * 5, 3, 6)) ∧
    (∃ r : DiceResult,
      roll_expression (fun i => [3, 5, 2].getD i 1) ['3', 'd', '6', 'x', '5'] =
        Except.ok r ∧
      r.total = 5 * (((fun i => [3, 5, 2].getD i 1) 0 : ℤ) +
        (fun i => [3, 5, 2].getD i 1) 1 + (fun i => [3, 5, 2].getD i 1) 2)) := by
  have h := c6_multiplier_scales_each_die_and_modifier (fun i => [3, 5, 2].getD i 1)
    3 6 0 5 0 (by decide) (by decide) (by decide) (by decide)
  exact ⟨h.1, h.2 (by decide)⟩

theorem wod_fold (difficulty : ℤ) (spec : Bool) (l : List ℕ) :
    ∀ s o : ℕ, l.foldl (wodStep difficulty spec) (s, o) =
      (s + wod_spec_successes difficulty spec l, o + wod_code_ones difficulty l) := by
  induction l with
  | nil => intro s o; simp [wod_spec_successes, wod_code_ones]
  | cons r rest ih =>
    intro s o
    simp only [List.foldl_cons, wod_spec_successes, wod_code_ones, wodStep]
    split_ifs with h1 h2 h3 <;> simp only [ih, Prod.mk.injEq] <;> constructor <;> omega

theorem wod_code_ones_eq_count (difficulty : ℤ) (spec : Bool) (l : List ℕ)
    (h : wod_spec_successes difficulty spec l = 0) :
    wod_code_ones difficulty l = l.count 1 := by
  induction l with
  | nil => simp [wod_code_ones]
  | cons r rest ih =>
    simp only [wod_spec_successes] at h
    have hsplit : (if difficulty ≤ (r : ℤ) then (if spec ∧ r = 10 then 2 else 1) else 0)
        = 0 ∧ wod_spec_successes difficulty spec rest = 0 := by omega
    have hnot : ¬ difficulty ≤ (r : ℤ) := by
      by_contra hle
      have h0 := hsplit.1
      rw [if_pos hle] at h0
      split_ifs at h0
    by_cases hr : r = 1
    · simp [wod_code_ones, List.count_cons, hnot, hr, ih hsplit.2]
      split_ifs <;> omega
    · simp [wod_code_ones, List.count_cons, hnot, hr, ih hsplit.2]

/-- Claim C7: for a pool of at least one d10 draw, the reported successes are
one per die at or above the difficulty plus one extra for a specialized 10,
and the botch flag holds exactly when there are no successes and at least one
die shows 1.  (The source only counts a 1 in its `elif` branch — below the
difficulty — but when successes are zero no die reached the difficulty, so
the two counts agree wherever botch is consulted.) -/
theorem c7_wod_pool_successes_and_botch
    (tape : ℕ → ℕ) (ps difficulty : ℤ) (spec : Bool)
    (hps : 1 ≤ ps) (_hd10 : ∀ i, i < ps.toNat → 1 ≤ tape i ∧ tape i ≤ 10) :
    (roll_wod_pool tape ps difficulty spec).lookup "successes" =
      some (WodVal.n (wod_spec_successes difficulty spec (draws tape 0 ps.toNat))) ∧
    (roll_wod_pool tape ps difficulty spec).lookup "botch" =
      some (WodVal.b (decide
        (wod_spec_successes difficulty spec (draws tape 0 ps.toNat) = 0 ∧
         0 < (draws tape 0 ps.toNat).count 1))) := by
  have hnot : ¬ ps ≤ 0 := by omega
  have hfold := wod_fold difficulty spec (draws tape 0 ps.toNat) 0 0
  have hpool : roll_wod_pool tape ps difficulty spec =
      [("successes", WodVal.n
          (wod_spec_successes difficulty spec (draws tape 0 ps.toNat))),
       ("rolls", WodVal.l (draws tape 0 ps.toNat)),
       ("botch", WodVal.b (decide
          (wod_spec_successes difficulty spec (draws tape 0 ps.toNat) = 0 ∧
           0 < wod_code_ones difficulty (draws tape 0 ps.toNat)))),
       ("difficulty", WodVal.i difficulty),
       ("pool_size", WodVal.i ps)] := by
    simp only [roll_wod_pool, if_neg hnot, hfold, Nat.zero_add]
  rw [hpool]
  constructor
  · rfl
  · show some (WodVal.b _) = some (WodVal.b _)
    congr 2
    apply decide_eq_decide.mpr
    constructor
    · rintro ⟨h0, hones⟩
      exact ⟨h0, by rwa [← wod_code_ones_eq_count difficulty spec _ h0]⟩
    · rintro ⟨h0, hones⟩
      exact ⟨h0, by rwa [wod_code_ones_eq_count difficulty spec _ h0]⟩

/-- Witness for C7: the spec's own botch example, pool 3 at difficulty 6
rolling 1, 1, 4. -/
theorem c7_wod_pool_successes_and_botch_witness :
    (roll_wod_pool (fun i => [1, 1, 4].getD i 1) 3 6 false).lookup "successes" =
      some (WodVal.n (wod_spec_successes 6 false
        (draws (fun i => [1, 1, 4].getD i 1) 0 (3 : ℤ).toNat))) ∧
    (roll_wod_pool (fun i => [1, 1, 4].getD i 1) 3 6 false).lookup "botch" =
      some (WodVal.b (decide
        (wod_spec_successes 6 false (draws (fun i => [1, 1, 4].getD i 1) 0 (3 : ℤ).toNat) = 0 ∧
         0 < (draws (fun i => [1, 1, 4].getD i 1) 0 (3 : ℤ).toNat).count 1))) :=
  c7_wod_pool_successes_and_botch (fun i => [1, 1, 4].getD i 1) 3 6 false
    (by decide) (by decide)

/-- Claim C8, counterexample: at the claimed edge case `pool_size = 0` the
returned record has no `pool_size` and no `difficulty` field at all — the
early return of lines 289-290 carries only three keys, so the claim's
five-field contract fails at `pool_size = 0`. -/
theorem c8_zero_pool_lacks_difficulty_and_pool_size :
    (roll_wod_pool (fun _ => 1) 0 6 false).lookup "pool_size" = none ∧
    (roll_wod_pool (fun _ => 1) 0 6 false).lookup "difficulty" = none :=
  ⟨rfl, rfl⟩

/-- Claim C8 (amended): for every `pool_size ≥ 1` the returned record carries
all five fields `successes, rolls, botch, difficulty, pool_size`, the latter
two echoing the arguments; for `pool_size ≤ 0` (including the `0` edge case)
the record instead carries only `successes = 0`, an empty roll list and
`botch = true`. -/
theorem c8_wod_pool_record_fields
    (tape : ℕ → ℕ) (ps difficulty : ℤ) (spec : Bool) (hps : 1 ≤ ps) :
    ((roll_wod_pool tape ps difficulty spec).map Prod.fst =
      ["successes", "rolls", "botch", "difficulty", "pool_size"] ∧
     (roll_wod_pool tape ps difficulty spec).lookup "difficulty" =
       some (WodVal.i difficulty) ∧
     (roll_wod_pool tape ps difficulty spec).lookup "pool_size" =
       some (WodVal.i ps)) ∧
    roll_wod_pool tape 0 difficulty spec =
      [("successes", WodVal.n 0), ("rolls", WodVal.l []), ("botch", WodVal.b true)] := by
  have hnot : ¬ ps ≤ 0 := by omega
  refine ⟨⟨?_, ?_, ?_⟩, rfl⟩
  · simp only [roll_wod_pool, if_neg hnot]
    rfl
  · simp only [roll_wod_pool, if_neg hnot]
    rfl
  · simp only [roll_wod_pool, if_neg hnot]
    rfl

/-- Witness for C8 at pool 3, difficulty 6. -/
theorem c8_wod_pool_record_fields_witness :
    ((roll_wod_pool (fun _ => 1) 3 6 false).map Prod.fst =
      ["successes", "rolls", "botch", "difficulty", "pool_size"] ∧
     (roll_wod_pool (fun _ => 1) 3 6 false).lookup "difficulty" =
       some (WodVal.i 6) ∧
     (roll_wod_pool (fun _ => 1) 3 6 false).lookup "pool_size" =
       some (WodVal.i 3)) ∧
    roll_wod_pool (fun _ => 1) 0 6 false =
      [("successes", WodVal.n 0), ("rolls", WodVal.l []), ("botch", WodVal.b true)] :=
  c8_wod_pool_record_fields (fun _ => 1) 3 6 false (by decide)
